import Mathlib

/-!
Verification of the process hierarchy of `thalesians/tsa`
(`src/main/python/thalesians/tsa/processes.py`).

Numpy 2-d arrays of floats are modelled as `NDArr`: a shape together with a
total entry function (entries at indices outside the shape are irrelevant
padding).  Operations that can raise in Python return `Except PyErr`.
Shapes are tracked exactly as numpy does, including numpy's broadcasting
rules for elementwise operations, so that shape errors of the source are
reproduced by the model.  Floats are modelled as real numbers; scipy's
`la.expm` is modelled by Mathlib's matrix exponential `NormedSpace.exp ℝ`,
and `np.linalg.inv` by Mathlib's `Matrix` inverse.
-/

/-- Python exception taxonomy needed by `processes.py`. -/
inductive PyErr where
  | valueError : PyErr
  | typeError : PyErr
  | notImplementedError : String → PyErr
deriving DecidableEq

/-- A 2-d numpy array of floats: a shape `(rows, cols)` and a total entry
function; only entries with `i < rows`, `j < cols` are meaningful. -/
structure NDArr where
  rows : Nat
  cols : Nat
  entry : Nat → Nat → ℝ

/-- Two dimension extents are numpy-broadcast compatible when they are equal
or one of them is `1`. -/
def bcDim (a b : Nat) : Bool := a == b || a == 1 || b == 1

/-- Index into a possibly-broadcast dimension: a extent-1 dimension is
repeated, so it is always read at index 0. -/
def bcIdx (d i : Nat) : Nat := if d = 1 then 0 else i

/-- Elementwise binary operation with numpy 2-d broadcasting; raises
`ValueError` on incompatible shapes, exactly as numpy does. -/
def npBroadcast2 (op : ℝ → ℝ → ℝ) (a b : NDArr) : Except PyErr NDArr :=
  if bcDim a.rows b.rows && bcDim a.cols b.cols then
    .ok ⟨max a.rows b.rows, max a.cols b.cols, fun i j =>
      op (a.entry (bcIdx a.rows i) (bcIdx a.cols j))
         (b.entry (bcIdx b.rows i) (bcIdx b.cols j))⟩
  else .error .valueError

/-- Numpy elementwise `+` on arrays. -/
def np_add : NDArr → NDArr → Except PyErr NDArr := npBroadcast2 (· + ·)

/-- Numpy elementwise `-` on arrays. -/
def np_sub : NDArr → NDArr → Except PyErr NDArr := npBroadcast2 (· - ·)

/-- Multiplication of an array by a float scalar (numpy `array * scalar` and
`scalar * array`, which never raises and preserves the shape). -/
def np_smul (t : ℝ) (a : NDArr) : NDArr := ⟨a.rows, a.cols, fun i j => t * a.entry i j⟩

/-- Numpy transpose `a.T`. -/
def NDArr.T (a : NDArr) : NDArr := ⟨a.cols, a.rows, fun i j => a.entry j i⟩

/-- Matrix product entries (the payload of `np.dot` for 2-d arrays). -/
def np_mm (a b : NDArr) : NDArr :=
  ⟨a.rows, b.cols, fun i j => ∑ k ∈ Finset.range a.cols, a.entry i k * b.entry k j⟩

/-- `np.dot` on 2-d arrays: raises `ValueError` when the inner dimensions
disagree. -/
def np_dot (a b : NDArr) : Except PyErr NDArr :=
  if a.cols = b.rows then .ok (np_mm a b) else .error .valueError

/-- `np.eye d`. -/
def np_eye (d : Nat) : NDArr := ⟨d, d, fun i j => if i = j then 1 else 0⟩

/-- Modelled from the spec: `npu.col_of` / `npu.matrix_of` (the numeric
utility collaborator, not under `src/`) build constant column vectors and
matrices of a given shape. -/
def matrix_of (r c : Nat) (x : ℝ) : NDArr := ⟨r, c, fun _ _ => x⟩

/-- Modelled from the spec: `npu.col_of d x` is the constant `d × 1` column. -/
def col_of (d : Nat) (x : ℝ) : NDArr := matrix_of d 1 x

/-- Modelled from the spec: `npu.vec` (numeric utility collaborator, not
under `src/`) is the standard column-major vectorization, a `rows·cols × 1`
column. -/
def npu_vec (a : NDArr) : NDArr :=
  ⟨a.rows * a.cols, 1, fun i _ => a.entry (i % a.rows) (i / a.rows)⟩

/-- Modelled from the spec: `npu.unvec v d` inverts `npu_vec` into a `d × d`
matrix; the argument must be a `d·d × 1` column. -/
def npu_unvec (a : NDArr) (d : Nat) : Except PyErr NDArr :=
  if a.rows = d * d ∧ a.cols = 1 then
    .ok ⟨d, d, fun i j => a.entry (j * d + i) 0⟩
  else .error .valueError

/-- Numpy Kronecker product `np.kron` of 2-d arrays. -/
def np_kron (a b : NDArr) : NDArr :=
  ⟨a.rows * b.rows, a.cols * b.cols, fun i j =>
    a.entry (i / b.rows) (j / b.cols) * b.entry (i % b.rows) (j % b.cols)⟩

/-- Modelled from the spec: `npu.kron_sum a b = a ⊗ I + I ⊗ b` (glossary:
the Kronecker sum), used with square arguments. -/
def npu_kron_sum (a b : NDArr) : NDArr :=
  ⟨a.rows * b.rows, a.cols * b.cols, fun i j =>
    (np_kron a (np_eye b.rows)).entry i j + (np_kron (np_eye a.rows) b).entry i j⟩

/-- Entries of the matrix exponential of a square array: Mathlib's
`NormedSpace.exp ℝ` on the induced `Matrix (Fin n) (Fin n) ℝ`. -/
noncomputable def la_expm_core (a : NDArr) : NDArr :=
  ⟨a.rows, a.rows, fun i j =>
    if hi : i < a.rows then
      if hj : j < a.rows then
        NormedSpace.exp ℝ (Matrix.of fun p q : Fin a.rows => a.entry p.val q.val) ⟨i, hi⟩ ⟨j, hj⟩
      else 0
    else 0⟩

/-- `scipy.linalg.expm`: the matrix exponential; raises on a non-square
argument. -/
noncomputable def la_expm (a : NDArr) : Except PyErr NDArr :=
  if a.rows = a.cols then .ok (la_expm_core a) else .error .valueError

/-- Entries of the inverse of a square array, via Mathlib's `Matrix`
inverse on the induced `Matrix (Fin n) (Fin n) ℝ`. -/
noncomputable def np_inv_core (a : NDArr) : NDArr :=
  ⟨a.rows, a.rows, fun i j =>
    if hi : i < a.rows then
      if hj : j < a.rows then
        (Matrix.of fun p q : Fin a.rows => a.entry p.val q.val)⁻¹ ⟨i, hi⟩ ⟨j, hj⟩
      else 0
    else 0⟩

/-- `np.linalg.inv`: raises on a non-square argument. -/
noncomputable def np_inv (a : NDArr) : Except PyErr NDArr :=
  if a.rows = a.cols then .ok (np_inv_core a) else .error .valueError

/-- A time coordinate as accepted by `MarkovProcess.propagate_distr`: either
an already-dimensionless number, or a wall-clock instant (a `datetime`,
represented by its timestamp in seconds), whose differences are
`dt.timedelta` durations. -/
inductive PyTime where
  | num : ℝ → PyTime
  | date : ℝ → PyTime

/-- The raw difference `time - time0`: a dimensionless number for numeric
coordinates, a duration (in seconds) for wall-clock coordinates. -/
inductive RawDelta where
  | scalar : ℝ → RawDelta
  | duration : ℝ → RawDelta

/-- Python subtraction of two time coordinates; mixing a number with a
`datetime` raises `TypeError`. -/
def PyTime.sub : PyTime → PyTime → Except PyErr RawDelta
  | .num a, .num b => .ok (.scalar (a - b))
  | .date a, .date b => .ok (.duration (a - b))
  | _, _ => .error .typeError

/-- Lines 70-72 of `processes.py`: a `dt.timedelta` difference is made
dimensionless by `total_seconds() / time_unit.total_seconds()`; a numeric
difference is used unchanged. -/
noncomputable def toStep (r : RawDelta) (time_unit_seconds : ℝ) : ℝ :=
  match r with
  | .scalar x => x
  | .duration s => s / time_unit_seconds

/-- The elapsed-step computation of `MarkovProcess.propagate_distr`
(lines 70-72): `raw = time - time0`, converted to a dimensionless scalar. -/
noncomputable def elapsed_step (time time0 : PyTime) (time_unit_seconds : ℝ) : Except PyErr ℝ :=
  (PyTime.sub time time0).map fun raw => toStep raw time_unit_seconds

noncomputable instance : DecidableEq ℝ := fun _ _ => Classical.propDecidable _

noncomputable instance : DecidableEq PyTime := fun _ _ => Classical.propDecidable _

noncomputable instance : DecidableEq NDArr := fun _ _ => Classical.propDecidable _

/-- Modelled from the spec: `distrs.NormalDistr` (distribution collaborator,
not under `src/`) is a value type exposing `mean` and `cov` with structural
equality on their content. -/
structure NormalDistr where
  mean : NDArr
  cov : NDArr

noncomputable instance : DecidableEq NormalDistr := fun _ _ => Classical.propDecidable _

/-- Modelled from the spec: `distrs.NormalDistr.create_dirac_delta` builds a
point mass at `value0`: mean `value0`, zero covariance. -/
def NormalDistr.dirac (v : NDArr) : NormalDistr := ⟨v, matrix_of v.rows v.rows 0⟩

/-- The single-slot cache of `MarkovProcess` (lines 61-64), holding at most
one `(time, time0, distr0) ↦ distr` entry; `none` models the freshly
constructed process, whose four cache fields are `None`. -/
structure MarkovState (D : Type) where
  cached : Option (PyTime × PyTime × D × D)

/-- The cache test of line 69 of `processes.py`: the cached result is served
exactly when an entry exists and all three keys are equal by value. -/
noncomputable def cache_hit {D : Type} [DecidableEq D]
    (s : MarkovState D) (time time0 : PyTime) (distr0 : D) : Option D :=
  match s.cached with
  | none => none
  | some (t, t0, d0, d) => if t = time ∧ t0 = time0 ∧ d0 = distr0 then some d else none

/-- `MarkovProcess.propagate_distr` (lines 67-77).  `impl` is the variant's
`_propagate_distr_impl`, a state transformer over the variant's own
auxiliary mutable state `σ` (the OU memo slots; `Unit` for Wiener); it can
raise.  Returns the result together with the updated cache and auxiliary
state.  On `time == time0` the prior is returned with no cache interaction;
the three cache keys are written only after `impl` succeeds. -/
noncomputable def MarkovProcess.propagate_distr {D σ : Type} [DecidableEq D]
    (impl : ℝ → D → σ → Except PyErr D × σ)
    (time_unit_seconds : ℝ) (time time0 : PyTime) (distr0 : D)
    (s : MarkovState D) (aux : σ) : Except PyErr D × MarkovState D × σ :=
  if time = time0 then (.ok distr0, s, aux)
  else
    match cache_hit s time time0 distr0 with
    | some d => (.ok d, s, aux)
    | none =>
      match elapsed_step time time0 time_unit_seconds with
      | .error e => (.error e, s, aux)
      | .ok td =>
        match impl td distr0 aux with
        | (.ok d, aux2) => (.ok d, ⟨some (time, time0, distr0, d)⟩, aux2)
        | (.error e, aux2) => (.error e, s, aux2)

/-- One single-slot memo of `OrnsteinUhlenbeckProcess` (lines 213-216): the
most recently requested key `Δt` and the value stored for it.  Both start
as `None`. -/
structure MemoState (K M : Type) where
  key : Option K
  val : Option M

/-- The memoization pattern of `mean_reversion_factor` and
`mean_reversion_factor_squared` (lines 240-250): on a key miss the cached
key is assigned BEFORE the value is computed, so when the computation `f`
raises, the updated key is left pointing at the stale value. -/
def memo_step {K M : Type} [DecidableEq K]
    (f : K → Except PyErr M) (s : MemoState K M) (k : K) :
    Except PyErr (Option M) × MemoState K M :=
  if s.key = some k then (.ok s.val, s)
  else
    match f k with
    | .ok m => (.ok (some m), ⟨some k, some m⟩)
    | .error e => (.error e, ⟨some k, s.val⟩)

/-- `WienerProcess` after construction (lines 106-134): a `d × 1` drift
`mean` and a `d × n` volatility `vol` (post-coercion by `npu.to_ndim_2`),
validated by `check_col` / `check_nrow`.  `process_dim` is the row count of
`mean` and `vol`; `noise_dim` is the column count of `vol`. -/
structure WienerProcess where
  mean : NDArr
  vol : NDArr
  mean_is_col : mean.cols = 1
  vol_rows : vol.rows = mean.rows

/-- `WienerProcess.process_dim`. -/
def WienerProcess.process_dim (p : WienerProcess) : Nat := p.mean.rows

/-- `WienerProcess.noise_dim`. -/
def WienerProcess.noise_dim (p : WienerProcess) : Nat := p.vol.cols

/-- Line 128: `self._cov = np.dot(self._vol, self._vol.T)`. -/
def WienerProcess.cov (p : WienerProcess) : NDArr := np_mm p.vol p.vol.T

/-- `WienerProcess.propagate` (lines 156-161): identity on equal times,
otherwise `value0 + mean * Δt + np.dot(vol, sqrt(Δt) * variate)`. -/
noncomputable def WienerProcess.propagate (p : WienerProcess) (time : ℝ) (variate : NDArr)
    (time0 : ℝ) (value0 : NDArr) : Except PyErr NDArr :=
  if time = time0 then .ok value0
  else do
    let a ← np_add value0 (np_smul (time - time0) p.mean)
    let b ← np_dot p.vol (np_smul (Real.sqrt (time - time0)) variate)
    np_add a b

/-- `WienerProcess._propagate_distr_impl` (lines 163-166). -/
noncomputable def WienerProcess.propagate_distr_impl (p : WienerProcess) (td : ℝ)
    (d0 : NormalDistr) : Except PyErr NormalDistr := do
  let m ← np_add d0.mean (np_smul td p.mean)
  let c ← np_add d0.cov (np_smul td (WienerProcess.cov p))
  .ok ⟨m, c⟩

/-- `WienerProcess._propagate_distr_impl` packaged as the (stateless) state
transformer consumed by the Markov engine. -/
noncomputable def WienerProcess.impl (p : WienerProcess) :
    ℝ → NormalDistr → Unit → Except PyErr NormalDistr × Unit :=
  fun td d0 a => (WienerProcess.propagate_distr_impl p td d0, a)

/-- `OrnsteinUhlenbeckProcess` after construction (lines 179-226): a square
`d × d` `transition`, a `d × 1` `mean` and a `d × n` `vol`, validated by
`check_square` / `check_col` / `check_nrow`. -/
structure OrnsteinUhlenbeckProcess where
  transition : NDArr
  mean : NDArr
  vol : NDArr
  transition_square : transition.cols = transition.rows
  transition_rows : transition.rows = mean.rows
  mean_is_col : mean.cols = 1
  vol_rows : vol.rows = mean.rows

namespace OrnsteinUhlenbeckProcess

/-- `OrnsteinUhlenbeckProcess.process_dim`. -/
def process_dim (p : OrnsteinUhlenbeckProcess) : Nat := p.mean.rows

/-- `OrnsteinUhlenbeckProcess.noise_dim`. -/
def noise_dim (p : OrnsteinUhlenbeckProcess) : Nat := p.vol.cols

/-- Line 208: `self._transition_x_2 = npu.kron_sum(self._transition, self._transition)`. -/
def transition_x_2 (p : OrnsteinUhlenbeckProcess) : NDArr :=
  npu_kron_sum p.transition p.transition

/-- Line 209: `self._transition_x_2_inverse = np.linalg.inv(self._transition_x_2)`
(the Kronecker sum is square, so `np.linalg.inv` does not shape-fail). -/
noncomputable def transition_x_2_inverse (p : OrnsteinUhlenbeckProcess) : NDArr :=
  np_inv_core (transition_x_2 p)

/-- Line 210: `self._cov = np.dot(self._vol, self._vol.T)`. -/
def cov (p : OrnsteinUhlenbeckProcess) : NDArr := np_mm p.vol p.vol.T

/-- Line 211: `self._cov_vec = npu.vec(self._cov)`. -/
def cov_vec (p : OrnsteinUhlenbeckProcess) : NDArr := npu_vec (cov p)

/-- `OrnsteinUhlenbeckProcess.mean_reversion_factor` (lines 240-244):
memoized `la.expm(transition * (-Δt))`, keyed on the most recent `Δt`. -/
noncomputable def mean_reversion_factor (p : OrnsteinUhlenbeckProcess)
    (s : MemoState ℝ NDArr) (td : ℝ) : Except PyErr (Option NDArr) × MemoState ℝ NDArr :=
  memo_step (fun t => la_expm (np_smul (-t) p.transition)) s td

/-- `OrnsteinUhlenbeckProcess.mean_reversion_factor_squared` (lines 246-250):
memoized `la.expm(transition_x_2 * (-Δt))`, keyed on the most recent `Δt`. -/
noncomputable def mean_reversion_factor_squared (p : OrnsteinUhlenbeckProcess)
    (s : MemoState ℝ NDArr) (td : ℝ) : Except PyErr (Option NDArr) × MemoState ℝ NDArr :=
  memo_step (fun t => la_expm (np_smul (-t) (transition_x_2 p))) s td

/-- `OrnsteinUhlenbeckProcess.noise_covariance` (lines 252-255):
`unvec(dot(dot(transition_x_2_inverse, np.eye(process_dim) - mrfsquared), cov_vec), process_dim)`,
threading the `mean_reversion_factor_squared` memo slot.  A memo slot
poisoned to hold `None` makes `np.eye(d) - None` raise `TypeError`. -/
noncomputable def noise_covariance (p : OrnsteinUhlenbeckProcess)
    (s : MemoState ℝ NDArr) (td : ℝ) : Except PyErr NDArr × MemoState ℝ NDArr :=
  match mean_reversion_factor_squared p s td with
  | (.error e, s2) => (.error e, s2)
  | (.ok none, s2) => (.error .typeError, s2)
  | (.ok (some mrfsquared), s2) =>
    (do
      let eyeminusmrfsquared ← np_sub (np_eye (process_dim p)) mrfsquared
      let t1 ← np_dot (transition_x_2_inverse p) eyeminusmrfsquared
      let t2 ← np_dot t1 (cov_vec p)
      npu_unvec t2 (process_dim p), s2)

/-- The two memo slots of an `OrnsteinUhlenbeckProcess` (lines 213-216). -/
structure OUMemo where
  mrf : MemoState ℝ NDArr
  mrfsq : MemoState ℝ NDArr

/-- The freshly constructed memo state: all four cached fields are `None`. -/
def OUMemo.fresh : OUMemo := ⟨⟨none, none⟩, ⟨none, none⟩⟩

/-- `OrnsteinUhlenbeckProcess._propagate_distr_impl` (lines 268-274),
following the evaluation order of the source: `mrf` (memoized), then
`m = dot(mrf, mean0) + dot(eye - mrf, mean)`, then `dot(dot(mrf, cov0), mrf.T)`,
then `noise_covariance(Δt)` (memoized), then their sum. -/
noncomputable def propagate_distr_impl (p : OrnsteinUhlenbeckProcess) (td : ℝ)
    (d0 : NormalDistr) (s : OUMemo) : Except PyErr NormalDistr × OUMemo :=
  match mean_reversion_factor p s.mrf td with
  | (.error e, s1) => (.error e, ⟨s1, s.mrfsq⟩)
  | (.ok none, s1) => (.error .typeError, ⟨s1, s.mrfsq⟩)
  | (.ok (some mrf), s1) =>
    match (do
        let eyeminusmrf ← np_sub (np_eye (process_dim p)) mrf
        let m1 ← np_dot mrf d0.mean
        let m2 ← np_dot eyeminusmrf p.mean
        np_add m1 m2 : Except PyErr NDArr) with
    | .error e => (.error e, ⟨s1, s.mrfsq⟩)
    | .ok m =>
      match (do
          let c1 ← np_dot mrf d0.cov
          np_dot c1 mrf.T : Except PyErr NDArr) with
      | .error e => (.error e, ⟨s1, s.mrfsq⟩)
      | .ok c2 =>
        match noise_covariance p s.mrfsq td with
        | (.error e, sq2) => (.error e, ⟨s1, sq2⟩)
        | (.ok nc, sq2) =>
          match np_add c2 nc with
          | .error e => (.error e, ⟨s1, sq2⟩)
          | .ok c => (.ok ⟨m, c⟩, ⟨s1, sq2⟩)

/-- `OrnsteinUhlenbeckProcess._propagate_distr_impl` as the state
transformer consumed by the Markov engine, over the two memo slots. -/
noncomputable def impl (p : OrnsteinUhlenbeckProcess) :
    ℝ → NormalDistr → OUMemo → Except PyErr NormalDistr × OUMemo :=
  fun td d0 s => propagate_distr_impl p td d0 s

/-- `OrnsteinUhlenbeckProcess.propagate` (lines 257-266): identity on equal
times; otherwise `m + dot(cholesky(c), variate)` with
`m = dot(mrf, value0) + dot(eye - mrf, mean)` and `c = noise_covariance(Δt)`.
`chol` models `np.linalg.cholesky` (external numeric routine). -/
noncomputable def propagate (chol : NDArr → Except PyErr NDArr)
    (p : OrnsteinUhlenbeckProcess) (time : ℝ) (variate : NDArr)
    (time0 : ℝ) (value0 : NDArr) (s : OUMemo) : Except PyErr NDArr × OUMemo :=
  if time = time0 then (.ok value0, s)
  else
    match mean_reversion_factor p s.mrf (time - time0) with
    | (.error e, s1) => (.error e, ⟨s1, s.mrfsq⟩)
    | (.ok none, s1) => (.error .typeError, ⟨s1, s.mrfsq⟩)
    | (.ok (some mrf), s1) =>
      match (do
          let eyeminusmrf ← np_sub (np_eye (process_dim p)) mrf
          let m1 ← np_dot mrf value0
          let m2 ← np_dot eyeminusmrf p.mean
          np_add m1 m2 : Except PyErr NDArr) with
      | .error e => (.error e, ⟨s1, s.mrfsq⟩)
      | .ok m =>
        match noise_covariance p s.mrfsq (time - time0) with
        | (.error e, sq2) => (.error e, ⟨s1, sq2⟩)
        | (.ok c, sq2) =>
          (do
            let l ← chol c
            let lv ← np_dot l variate
            np_add m lv, ⟨s1, sq2⟩)

end OrnsteinUhlenbeckProcess

/-- `SolvedItoProcess.propagate` (lines 50-51): the abstract exact-solution
hook always raises `NotImplementedError` (with no message). -/
def SolvedItoProcess.propagate (time : PyTime) (variate : NDArr)
    (time0 : PyTime) (value0 : NDArr) : Except PyErr NDArr :=
  .error (.notImplementedError "")

/-- The message of line 91 of `processes.py`. -/
def noise_dim_message : String :=
  "Cannot utilise the propagate_distr of the Markov process in propagate if noise_dim != process_dim; provide a custom implementation"

/-- `SolvedItoMarkovProcess.propagate` (lines 89-96), for a process with the
given dimensions whose distribution propagation is `impl`: refuses with
`NotImplementedError` when `noise_dim != process_dim` (before looking at any
argument or state); identity on equal times; otherwise forms a Dirac delta
at `value0`, runs `propagate_distr` through the cache, and returns
`mean + dot(cholesky(cov), variate)`.  `chol` models `np.linalg.cholesky`. -/
noncomputable def SolvedItoMarkovProcess.propagate {σ : Type}
    (process_dim noise_dim : Nat)
    (impl : ℝ → NormalDistr → σ → Except PyErr NormalDistr × σ)
    (chol : NDArr → Except PyErr NDArr)
    (time_unit_seconds : ℝ) (time : PyTime) (variate : NDArr)
    (time0 : PyTime) (value0 : NDArr)
    (s : MarkovState NormalDistr) (aux : σ) :
    Except PyErr NDArr × MarkovState NormalDistr × σ :=
  if noise_dim ≠ process_dim then
    (.error (.notImplementedError noise_dim_message), s, aux)
  else if time = time0 then (.ok value0, s, aux)
  else
    match MarkovProcess.propagate_distr impl time_unit_seconds time time0
        (NormalDistr.dirac value0) s aux with
    | (.error e, s2, aux2) => (.error e, s2, aux2)
    | (.ok distr, s2, aux2) =>
      (do
        let l ← chol distr.cov
        let lv ← np_dot l variate
        np_add distr.mean lv, s2, aux2)

/-- A boolean numpy array, as produced by elementwise `==` on float arrays. -/
structure NpBool where
  rows : Nat
  cols : Nat
  entry : Nat → Nat → Bool

/-- Numpy elementwise `==` on float arrays, with broadcasting.  On
broadcast-incompatible shapes, `==` between arrays yields the scalar
`False` (legacy numpy comparison behaviour) rather than raising. -/
noncomputable def np_eqB (a b : NDArr) : NpBool :=
  if bcDim a.rows b.rows && bcDim a.cols b.cols then
    ⟨max a.rows b.rows, max a.cols b.cols, fun i j =>
      if a.entry (bcIdx a.rows i) (bcIdx a.cols j)
          = b.entry (bcIdx b.rows i) (bcIdx b.cols j) then true else false⟩
  else ⟨1, 1, fun _ _ => false⟩

/-- Python `bool()` of a numpy boolean array: the single element for a
size-one array; `ValueError` (ambiguous truth value) otherwise. -/
def py_bool (a : NpBool) : Except PyErr Bool :=
  if a.rows * a.cols = 1 then .ok (a.entry 0 0) else .error .valueError

/-- Python `x and y` on numpy boolean arrays: evaluates `bool(x)` (which can
raise), returning `x` itself when falsy and `y` otherwise. -/
def py_and (a b : NpBool) : Except PyErr NpBool := do
  let t ← py_bool a
  if t then .ok b else .ok a

/-- `WienerProcess.__eq__` (lines 168-171) for two instances of the class:
`self._mean == other._mean and self._vol == other._vol` on numpy arrays. -/
noncomputable def WienerProcess.eq (p q : WienerProcess) : Except PyErr NpBool :=
  py_and (np_eqB p.mean q.mean) (np_eqB p.vol q.vol)

/-- `WienerProcess.__ne__` (lines 173-174): `not self.__eq__(other)`, which
coerces the `__eq__` result through `bool()`. -/
noncomputable def WienerProcess.ne (p q : WienerProcess) : Except PyErr Bool := do
  let r ← WienerProcess.eq p q
  let b ← py_bool r
  .ok (!b)

/-- `OrnsteinUhlenbeckProcess.__eq__` (lines 276-279) for two instances of
the class: structural on `(mean, vol)` only; `transition` is not compared. -/
noncomputable def OrnsteinUhlenbeckProcess.eq (p q : OrnsteinUhlenbeckProcess) :
    Except PyErr NpBool :=
  py_and (np_eqB p.mean q.mean) (np_eqB p.vol q.vol)

/-- `OrnsteinUhlenbeckProcess.__ne__` (lines 281-282). -/
noncomputable def OrnsteinUhlenbeckProcess.ne (p q : OrnsteinUhlenbeckProcess) :
    Except PyErr Bool := do
  let r ← OrnsteinUhlenbeckProcess.eq p q
  let b ← py_bool r
  .ok (!b)

/-- Stated from the claim text of C4, for comparison with the source:
`value0 + mean·Δt + vol·sqrt(Δt)·variate` with `Δt = time - time0`. -/
noncomputable def WienerProcess.propagate_spec (p : WienerProcess) (time : ℝ) (variate : NDArr)
    (time0 : ℝ) (value0 : NDArr) : Except PyErr NDArr := do
  let a ← np_add value0 (np_smul (time - time0) p.mean)
  let b ← np_dot p.vol (np_smul (Real.sqrt (time - time0)) variate)
  np_add a b

/-- Stated from the claim text of C3, for comparison with the source: a
Gaussian with mean `m0 + μ·Δt` and covariance `C0 + Δt·σσᵗ`. -/
noncomputable def WienerProcess.propagate_distr_spec (p : WienerProcess) (td : ℝ)
    (d0 : NormalDistr) : Except PyErr NormalDistr := do
  let m ← np_add d0.mean (np_smul td p.mean)
  let c ← np_add d0.cov (np_smul td (np_mm p.vol p.vol.T))
  .ok ⟨m, c⟩

/-- Stated from the claim text of C1, for comparison with the source:
`unvec(K⁻¹ · (I - mean_reversion_factor_squared(Δt)) · vec(vol·volᵗ), d)`
where `I` is the identity conformable with the `d² × d²` matrix
`mean_reversion_factor_squared(Δt)`. -/
noncomputable def OrnsteinUhlenbeckProcess.noise_covariance_spec
    (p : OrnsteinUhlenbeckProcess) (td : ℝ) : Except PyErr NDArr := do
  let mrfsquared ← la_expm (np_smul (-td) (OrnsteinUhlenbeckProcess.transition_x_2 p))
  let eyeminusmrfsquared ← np_sub
    (np_eye (OrnsteinUhlenbeckProcess.process_dim p * OrnsteinUhlenbeckProcess.process_dim p))
    mrfsquared
  let t1 ← np_dot (OrnsteinUhlenbeckProcess.transition_x_2_inverse p) eyeminusmrfsquared
  let t2 ← np_dot t1 (npu_vec (np_mm p.vol p.vol.T))
  npu_unvec t2 (OrnsteinUhlenbeckProcess.process_dim p)

/-- Stated from the claim text of C2, for comparison with the source: a
Gaussian with mean `mrf·mean0 + (I - mrf)·mean` and covariance
`mrf·cov0·mrfᵗ + noise_covariance(Δt)`, where `mrf` is the matrix
exponential `exp(-transition·Δt)` and `noise_covariance` is the process's
own noise covariance (evaluated with a fresh memo slot). -/
noncomputable def OrnsteinUhlenbeckProcess.propagate_distr_spec
    (p : OrnsteinUhlenbeckProcess) (td : ℝ) (d0 : NormalDistr) :
    Except PyErr NormalDistr := do
  let mrf ← la_expm (np_smul (-td) p.transition)
  let eyeminusmrf ← np_sub (np_eye (OrnsteinUhlenbeckProcess.process_dim p)) mrf
  let m1 ← np_dot mrf d0.mean
  let m2 ← np_dot eyeminusmrf p.mean
  let m ← np_add m1 m2
  let c1 ← np_dot mrf d0.cov
  let c2 ← np_dot c1 mrf.T
  let nc ← (OrnsteinUhlenbeckProcess.noise_covariance p ⟨none, none⟩ td).fst
  let c ← np_add c2 nc
  .ok ⟨m, c⟩

/-- The default `WienerProcess()` (line 109): 1-dimensional, mean `0`,
vol `1`. -/
def wiener_default : WienerProcess :=
  ⟨matrix_of 1 1 0, matrix_of 1 1 1, rfl, rfl⟩

/-- A 2-dimensional standard `WienerProcess` (mean the zero column, vol the
identity). -/
def wiener_dim2 : WienerProcess := ⟨col_of 2 0, np_eye 2, rfl, rfl⟩

/-- A 1-dimensional `WienerProcess` with vol `2`. -/
def wiener_vol2 : WienerProcess :=
  ⟨matrix_of 1 1 0, matrix_of 1 1 2, rfl, rfl⟩

/-- The default `OrnsteinUhlenbeckProcess()` (line 182): `transition = 1`,
`mean = 0`, `vol = 1`, all `1 × 1`. -/
def ou_default : OrnsteinUhlenbeckProcess :=
  ⟨matrix_of 1 1 1, matrix_of 1 1 0, matrix_of 1 1 1, rfl, rfl, rfl, rfl⟩

/-- A 2-dimensional `OrnsteinUhlenbeckProcess` with identity transition,
zero mean at the identity vol. -/
def ou_dim2 : OrnsteinUhlenbeckProcess :=
  ⟨np_eye 2, col_of 2 0, np_eye 2, rfl, rfl, rfl, rfl⟩

/-- A 1-dimensional `OrnsteinUhlenbeckProcess` with transition `3`, mean `0`,
vol `1`: same `(mean, vol)` as `ou_default`, different `transition`. -/
def ou_trans3 : OrnsteinUhlenbeckProcess :=
  ⟨matrix_of 1 1 3, matrix_of 1 1 0, matrix_of 1 1 1, rfl, rfl, rfl, rfl⟩

/-- C8: calling `propagate` on a solved Markov process whose `noise_dim`
differs from `process_dim`, without an override, fails with the
unsupported-operation condition naming the cause, before any distribution
propagation is attempted (the cache state is returned untouched and the
outcome is the same for every `impl`, `chol`, times, variate, value and
state); and `propagate` on the abstract solved Itô process without an
override fails with an unsupported-operation condition. -/
theorem C8_unsupported_propagate :
    (∀ (σ : Type) (pd nd : Nat)
        (impl : ℝ → NormalDistr → σ → Except PyErr NormalDistr × σ)
        (chol : NDArr → Except PyErr NDArr) (u : ℝ) (time time0 : PyTime)
        (variate value0 : NDArr) (s : MarkovState NormalDistr) (aux : σ),
        nd ≠ pd →
        SolvedItoMarkovProcess.propagate pd nd impl chol u time variate time0 value0 s aux
          = (.error (.notImplementedError noise_dim_message), s, aux))
    ∧ ∀ (time time0 : PyTime) (variate value0 : NDArr),
        SolvedItoProcess.propagate time variate time0 value0
          = .error (.notImplementedError "") := by
  constructor
  · intro σ pd nd impl chol u time time0 variate value0 s aux h
    simp [SolvedItoMarkovProcess.propagate, h]
  · intro time time0 variate value0
    rfl

/-- Witness for C8 at a concrete input: `process_dim = 1`, `noise_dim = 2`. -/
theorem C8_unsupported_propagate_witness :
    (2 : Nat) ≠ 1 ∧
    SolvedItoMarkovProcess.propagate 1 2 (fun (_ : ℝ) d (a : Unit) => (.ok d, a))
        (fun c => .ok c) 86400 (.num 1) (matrix_of 2 1 0) (.num 0) (matrix_of 1 1 0) ⟨none⟩ ()
      = (.error (.notImplementedError noise_dim_message), ⟨none⟩, ()) :=
  ⟨by decide, C8_unsupported_propagate.1 Unit 1 2 _ _ 86400 _ _ _ _ _ _ (by decide)⟩

/-- C5 counterexample: a solved Markov process with `process_dim = 1` and
`noise_dim = 2` is constructible and does not override `propagate`, yet
`propagate(t, v, t, v0)` raises `NotImplementedError` instead of returning
`v0`, refuting the claim for every process. -/
theorem C5_counterexample :
    (SolvedItoMarkovProcess.propagate 1 2 (fun (_ : ℝ) d (a : Unit) => (.ok d, a))
        (fun c => .ok c) 86400 (.num 0) (matrix_of 2 1 0) (.num 0) (matrix_of 1 1 5)
        ⟨none⟩ ()).fst
      ≠ .ok (matrix_of 1 1 5) := by
  simp [SolvedItoMarkovProcess.propagate]

/-- C5 (amended): for every Markov process, `propagate_distr(t, t, d)`
returns `d` exactly with no cache interaction (state unchanged, `impl` never
consulted); and `propagate(t, v, t, v0)` returns `v0` exactly for every
process whose `propagate` path is implemented: every `WienerProcess`, every
`OrnsteinUhlenbeckProcess`, and the generic solved Markov path whenever
`noise_dim = process_dim`. -/
theorem C5_amended :
    (∀ (D σ : Type) [DecidableEq D] (impl : ℝ → D → σ → Except PyErr D × σ)
        (u : ℝ) (t : PyTime) (d0 : D) (s : MarkovState D) (aux : σ),
        MarkovProcess.propagate_distr impl u t t d0 s aux = (.ok d0, s, aux))
    ∧ (∀ (p : WienerProcess) (t : ℝ) (v v0 : NDArr),
        WienerProcess.propagate p t v t v0 = .ok v0)
    ∧ (∀ (chol : NDArr → Except PyErr NDArr) (p : OrnsteinUhlenbeckProcess)
        (t : ℝ) (v v0 : NDArr) (s : OrnsteinUhlenbeckProcess.OUMemo),
        OrnsteinUhlenbeckProcess.propagate chol p t v t v0 s = (.ok v0, s))
    ∧ (∀ (σ : Type) (pd : Nat)
        (impl : ℝ → NormalDistr → σ → Except PyErr NormalDistr × σ)
        (chol : NDArr → Except PyErr NDArr) (u : ℝ) (t : PyTime) (v v0 : NDArr)
        (s : MarkovState NormalDistr) (aux : σ),
        SolvedItoMarkovProcess.propagate pd pd impl chol u t v t v0 s aux
          = (.ok v0, s, aux)) := by
  refine ⟨?_, ?_, ?_, ?_⟩
  · intro D σ inst impl u t d0 s aux
    simp [MarkovProcess.propagate_distr]
  · intro p t v v0
    simp [WienerProcess.propagate]
  · intro chol p t v v0 s
    simp [OrnsteinUhlenbeckProcess.propagate]
  · intro σ pd impl chol u t v v0 s aux
    simp [SolvedItoMarkovProcess.propagate]

/-- C7: inside `propagate_distr` the elapsed step is `raw = time - time0`,
divided by the time unit exactly when `raw` is a duration, and the Markov
engine hands this dimensionless value to the analytic formula on every cache
miss with `time ≠ time0`. -/
theorem C7_elapsed_step :
    (∀ (a b u : ℝ), elapsed_step (.num a) (.num b) u = .ok (a - b))
    ∧ (∀ (a b u : ℝ), elapsed_step (.date a) (.date b) u = .ok ((a - b) / u))
    ∧ (∀ (D σ : Type) [DecidableEq D] (impl : ℝ → D → σ → Except PyErr D × σ)
        (u : ℝ) (time time0 : PyTime) (d0 : D) (s : MarkovState D) (aux : σ) (td : ℝ),
        time ≠ time0 → cache_hit s time time0 d0 = none →
        elapsed_step time time0 u = .ok td →
        MarkovProcess.propagate_distr impl u time time0 d0 s aux
          = (match impl td d0 aux with
             | (.ok d, aux2) => (.ok d, ⟨some (time, time0, d0, d)⟩, aux2)
             | (.error e, aux2) => (.error e, s, aux2))) := by
  refine ⟨?_, ?_, ?_⟩
  · intro a b u
    rfl
  · intro a b u
    rfl
  · intro D σ inst impl u time time0 d0 s aux td hne hmiss hstep
    rw [MarkovProcess.propagate_distr, if_neg hne, hmiss, hstep]

/-- Witness for C7 at concrete inputs: numeric times `1` and `0`,
`impl` recording its argument into the result. -/
theorem C7_elapsed_step_witness :
    ((.num 1 : PyTime) ≠ .num 0)
    ∧ cache_hit (⟨none⟩ : MarkovState ℝ) (.num 1) (.num 0) 0 = none
    ∧ elapsed_step (.num 1) (.num 0) 86400 = .ok 1
    ∧ MarkovProcess.propagate_distr (fun td d0 (a : Unit) => (.ok (d0 + td), a))
        86400 (.num 1) (.num 0) (0 : ℝ) ⟨none⟩ ()
        = (.ok (0 + 1), ⟨some (.num 1, .num 0, 0, 0 + 1)⟩, ()) := by
  have h1 : (.num 1 : PyTime) ≠ .num 0 := by simp
  have h2 : cache_hit (⟨none⟩ : MarkovState ℝ) (.num 1) (.num 0) 0 = none := rfl
  have h3 : elapsed_step (.num 1) (.num 0) 86400 = .ok 1 := by
    norm_num [elapsed_step, PyTime.sub, toStep, Except.map]
  exact ⟨h1, h2, h3, C7_elapsed_step.2.2 ℝ Unit _ 86400 _ _ _ _ _ _ h1 h2 h3⟩

/-- C10: `mean_reversion_factor` and `mean_reversion_factor_squared` are the
memo pattern that assigns the cached `Δt` key before computing the matrix
exponential; when the computation raises, the key is left updated while the
stored value is stale, so a subsequent call with the same `Δt` serves that
stale value without recomputing (for any computation `g`); by contrast, the
Markov engine writes its cache keys only after `impl` succeeds: on an `impl`
error the cache state is returned unchanged. -/
theorem C10_memo_not_atomic :
    (∀ (p : OrnsteinUhlenbeckProcess) (s : MemoState ℝ NDArr) (td : ℝ),
        OrnsteinUhlenbeckProcess.mean_reversion_factor p s td
          = memo_step (fun t => la_expm (np_smul (-t) p.transition)) s td
        ∧ OrnsteinUhlenbeckProcess.mean_reversion_factor_squared p s td
          = memo_step
              (fun t => la_expm (np_smul (-t) (OrnsteinUhlenbeckProcess.transition_x_2 p))) s td)
    ∧ (∀ (K M : Type) [DecidableEq K] (f : K → Except PyErr M)
        (s : MemoState K M) (k : K) (e : PyErr),
        s.key ≠ some k → f k = .error e →
        memo_step f s k = (.error e, ⟨some k, s.val⟩))
    ∧ (∀ (K M : Type) [DecidableEq K] (g : K → Except PyErr M) (v : Option M) (k : K),
        memo_step g ⟨some k, v⟩ k = (.ok v, ⟨some k, v⟩))
    ∧ (∀ (D σ : Type) [DecidableEq D] (impl : ℝ → D → σ → Except PyErr D × σ)
        (u : ℝ) (time time0 : PyTime) (d0 : D) (s : MarkovState D) (aux : σ)
        (td : ℝ) (e : PyErr) (aux2 : σ),
        time ≠ time0 → cache_hit s time time0 d0 = none →
        elapsed_step time time0 u = .ok td → impl td d0 aux = (.error e, aux2) →
        MarkovProcess.propagate_distr impl u time time0 d0 s aux = (.error e, s, aux2)) := by
  refine ⟨?_, ?_, ?_, ?_⟩
  · intro p s td
    exact ⟨rfl, rfl⟩
  · intro K M inst f s k e hne hf
    rw [memo_step, if_neg hne, hf]
  · intro K M inst g v k
    rw [memo_step, if_pos rfl]
  · intro D σ inst impl u time time0 d0 s aux td e aux2 hne hmiss hstep himpl
    rw [MarkovProcess.propagate_distr, if_neg hne, hmiss, hstep]
    simp [himpl]

/-- Witness for C10 at concrete inputs: a failing computation on a fresh
memo slot updates the key and keeps the stale value; the same key is then
served stale; a failing `impl` leaves the Markov cache unchanged. -/
theorem C10_memo_not_atomic_witness :
    ((⟨none, some 7⟩ : MemoState ℕ ℕ).key ≠ some 3)
    ∧ ((fun _ : ℕ => (.error .valueError : Except PyErr ℕ)) 3 = .error .valueError)
    ∧ memo_step (fun _ : ℕ => (.error .valueError : Except PyErr ℕ)) ⟨none, some 7⟩ 3
        = (.error .valueError, ⟨some 3, some 7⟩)
    ∧ memo_step (fun _ : ℕ => (.ok 99 : Except PyErr ℕ)) ⟨some 3, some 7⟩ 3
        = (.ok (some 7), ⟨some 3, some 7⟩)
    ∧ ((.num 1 : PyTime) ≠ .num 0)
    ∧ cache_hit (⟨none⟩ : MarkovState ℝ) (.num 1) (.num 0) 0 = none
    ∧ elapsed_step (.num 1) (.num 0) 86400 = .ok 1
    ∧ ((fun (_ : ℝ) (_ : ℝ) (a : Unit) => ((.error .typeError : Except PyErr ℝ), a)) 1 0 ()
        = (.error .typeError, ()))
    ∧ MarkovProcess.propagate_distr
        (fun (_ : ℝ) (_ : ℝ) (a : Unit) => ((.error .typeError : Except PyErr ℝ), a))
        86400 (.num 1) (.num 0) (0 : ℝ) ⟨none⟩ ()
        = (.error .typeError, ⟨none⟩, ()) := by
  have h1 : (⟨none, some 7⟩ : MemoState ℕ ℕ).key ≠ some 3 := by decide
  have h2 : (fun _ : ℕ => (.error .valueError : Except PyErr ℕ)) 3 = .error .valueError := rfl
  have h5 : (.num 1 : PyTime) ≠ .num 0 := by simp
  have h6 : cache_hit (⟨none⟩ : MarkovState ℝ) (.num 1) (.num 0) 0 = none := rfl
  have h7 : elapsed_step (.num 1) (.num 0) 86400 = .ok 1 := by
    norm_num [elapsed_step, PyTime.sub, toStep, Except.map]
  have h8 : (fun (_ : ℝ) (_ : ℝ) (a : Unit) => ((.error .typeError : Except PyErr ℝ), a)) 1 0 ()
      = (.error .typeError, ()) := rfl
  exact ⟨h1, h2, C10_memo_not_atomic.2.1 ℕ ℕ _ _ 3 _ h1 h2,
    C10_memo_not_atomic.2.2.1 ℕ ℕ _ (some 7) 3,
    h5, h6, h7, h8,
    C10_memo_not_atomic.2.2.2 ℝ Unit _ 86400 _ _ _ _ _ 1 _ _ h5 h6 h7 h8⟩

/-- The cached prior distribution of the stale cache fixture. -/
def cached_prior : NormalDistr := NormalDistr.dirac (matrix_of 1 1 0)

/-- The cached result distribution of the stale cache fixture. -/
def cached_result : NormalDistr := NormalDistr.dirac (matrix_of 1 1 5)

/-- A prior distribution differing by value from `cached_prior`. -/
def other_prior : NormalDistr := NormalDistr.dirac (matrix_of 1 1 7)

/-- A Markov cache holding the entry `(1, 0, cached_prior) ↦ cached_result`. -/
def stale_state : MarkovState NormalDistr := ⟨some (.num 1, .num 0, cached_prior, cached_result)⟩

/-- A `_propagate_distr_impl` that always raises, so that any completed call
proves no recomputation took place. -/
def impl_err : ℝ → NormalDistr → Unit → Except PyErr NormalDistr × Unit :=
  fun _ _ a => (.error .valueError, a)

/-- C6 counterexample: with a cached entry keyed `(1, 0, cached_prior)`, the
call `propagate_distr(2, 2, other_prior)` has a triple differing from the
cached one in every component, yet it neither recomputes (the always-raising
`impl` is never consulted) nor evicts: it returns `other_prior` via the
equal-times path and leaves the old cache entry in place. -/
theorem C6_counterexample :
    MarkovProcess.propagate_distr impl_err 86400 (.num 2) (.num 2) other_prior stale_state ()
      = (.ok other_prior, stale_state, ())
    ∧ ((.num 2, .num 2, other_prior) : PyTime × PyTime × NormalDistr)
        ≠ (.num 1, .num 0, cached_prior)
    ∧ ∀ d : NormalDistr, stale_state ≠ ⟨some (.num 2, .num 2, other_prior, d)⟩ := by
  refine ⟨?_, ?_, ?_⟩
  · rw [MarkovProcess.propagate_distr, if_pos rfl]
  · intro h
    have h2 : (.num 2 : PyTime) = .num 1 := congrArg Prod.fst h
    simp at h2
  · intro d h
    have h2 : (some (.num 1, .num 0, cached_prior, cached_result) : Option (PyTime × PyTime × NormalDistr × NormalDistr)) = some (.num 2, .num 2, other_prior, d) :=
      congrArg MarkovState.cached h
    have h3 : (.num 1 : PyTime) = .num 2 := congrArg (fun o => (o.getD (.num 9, .num 9, other_prior, d)).fst) h2
    simp at h3

/-- C6 (amended): for calls with `time ≠ time0`, a triple equal by value to
the cached entry is served from the cache with no recomputation (any `impl`)
and no state change; and a call whose triple misses the cache triggers
recomputation and, when `impl` succeeds, replaces the single cached entry
with the new one. -/
theorem C6_amended :
    (∀ (D σ : Type) [DecidableEq D] (impl : ℝ → D → σ → Except PyErr D × σ)
        (u : ℝ) (time time0 : PyTime) (d0 d : D) (s : MarkovState D) (aux : σ),
        time ≠ time0 → s.cached = some (time, time0, d0, d) →
        MarkovProcess.propagate_distr impl u time time0 d0 s aux = (.ok d, s, aux))
    ∧ (∀ (D σ : Type) [DecidableEq D] (impl : ℝ → D → σ → Except PyErr D × σ)
        (u : ℝ) (time time0 : PyTime) (d0 : D) (s : MarkovState D) (aux : σ)
        (td : ℝ) (d : D) (aux2 : σ),
        time ≠ time0 → cache_hit s time time0 d0 = none →
        elapsed_step time time0 u = .ok td → impl td d0 aux = (.ok d, aux2) →
        MarkovProcess.propagate_distr impl u time time0 d0 s aux
          = (.ok d, ⟨some (time, time0, d0, d)⟩, aux2)) := by
  constructor
  · intro D σ inst impl u time time0 d0 d s aux hne hc
    rw [MarkovProcess.propagate_distr, if_neg hne, cache_hit, hc]
    simp
  · intro D σ inst impl u time time0 d0 s aux td d aux2 hne hmiss hstep himpl
    rw [MarkovProcess.propagate_distr, if_neg hne, hmiss, hstep]
    simp [himpl]

/-- Witness for C6 (amended) at concrete inputs: a hit on the cached entry
is served with an always-raising `impl`; a miss on the fresh cache
recomputes and stores the new entry. -/
theorem C6_amended_witness :
    ((.num 1 : PyTime) ≠ .num 0)
    ∧ stale_state.cached = some (.num 1, .num 0, cached_prior, cached_result)
    ∧ MarkovProcess.propagate_distr impl_err 86400 (.num 1) (.num 0) cached_prior stale_state ()
        = (.ok cached_result, stale_state, ())
    ∧ cache_hit (⟨none⟩ : MarkovState ℝ) (.num 1) (.num 0) 0 = none
    ∧ elapsed_step (.num 1) (.num 0) 86400 = .ok 1
    ∧ ((fun td (d0 : ℝ) (a : Unit) => ((.ok (d0 + td) : Except PyErr ℝ), a)) 1 0 ()
        = (.ok (0 + 1), ()))
    ∧ MarkovProcess.propagate_distr
        (fun td (d0 : ℝ) (a : Unit) => ((.ok (d0 + td) : Except PyErr ℝ), a))
        86400 (.num 1) (.num 0) (0 : ℝ) ⟨none⟩ ()
        = (.ok (0 + 1), ⟨some (.num 1, .num 0, 0, 0 + 1)⟩, ()) := by
  have h1 : (.num 1 : PyTime) ≠ .num 0 := by simp
  have h2 : stale_state.cached = some (.num 1, .num 0, cached_prior, cached_result) := rfl
  have h4 : cache_hit (⟨none⟩ : MarkovState ℝ) (.num 1) (.num 0) 0 = none := rfl
  have h5 : elapsed_step (.num 1) (.num 0) 86400 = .ok 1 := by
    norm_num [elapsed_step, PyTime.sub, toStep, Except.map]
  have h6 : (fun td (d0 : ℝ) (a : Unit) => ((.ok (d0 + td) : Except PyErr ℝ), a)) 1 0 ()
      = (.ok (0 + 1), ()) := rfl
  exact ⟨h1, h2, C6_amended.1 NormalDistr Unit impl_err 86400 _ _ _ _ _ () h1 h2,
    h4, h5, h6, C6_amended.2 ℝ Unit _ 86400 _ _ _ _ _ 1 _ _ h1 h4 h5 h6⟩

/-- C4: for all times `time ≠ time0`, `WienerProcess.propagate` computes
`value0 + mean·Δt + vol·sqrt(Δt)·variate` with `Δt = time - time0`. -/
theorem C4_wiener_propagate (p : WienerProcess) (time : ℝ) (variate : NDArr)
    (time0 : ℝ) (value0 : NDArr) (h : time ≠ time0) :
    WienerProcess.propagate p time variate time0 value0
      = WienerProcess.propagate_spec p time variate time0 value0 := by
  rw [WienerProcess.propagate, if_neg h]
  rfl

/-- Witness for C4 at a concrete input. -/
theorem C4_wiener_propagate_witness :
    ((1 : ℝ) ≠ 0) ∧
    WienerProcess.propagate wiener_default 1 (matrix_of 1 1 3) 0 (matrix_of 1 1 2)
      = WienerProcess.propagate_spec wiener_default 1 (matrix_of 1 1 3) 0 (matrix_of 1 1 2) :=
  ⟨one_ne_zero, C4_wiener_propagate wiener_default 1 (matrix_of 1 1 3) 0 (matrix_of 1 1 2) one_ne_zero⟩

/-- `WienerProcess._propagate_distr_impl` agrees with the claim-side formula
definitionally (`cov` is `vol·volᵗ` by line 128). -/
theorem wiener_impl_eq_spec (p : WienerProcess) (td : ℝ) (d0 : NormalDistr) :
    WienerProcess.propagate_distr_impl p td d0 = WienerProcess.propagate_distr_spec p td d0 := rfl

/-- C3: for every `WienerProcess` and every nonzero elapsed step, running
`propagate_distr` (through the Markov engine, from the freshly constructed
cache) on a prior `(m0, C0)` produces the Gaussian `(m0 + μ·Δt, C0 + Δt·σσᵗ)`
of the claim, errors included (an ill-shaped prior raises identically on
both sides). -/
theorem C3_wiener_propagate_distr (p : WienerProcess) (a b u : ℝ) (d0 : NormalDistr)
    (h : a ≠ b) :
    (MarkovProcess.propagate_distr (WienerProcess.impl p) u (.num a) (.num b) d0 ⟨none⟩ ()).fst
      = WienerProcess.propagate_distr_spec p (a - b) d0 := by
  have hne : (.num a : PyTime) ≠ .num b := by simp [h]
  have hmiss : cache_hit (⟨none⟩ : MarkovState NormalDistr) (.num a) (.num b) d0 = none := rfl
  have hstep : elapsed_step (.num a) (.num b) u = .ok (a - b) := rfl
  rw [MarkovProcess.propagate_distr, if_neg hne, hmiss, hstep,
    ← wiener_impl_eq_spec p (a - b) d0]
  rcases hres : WienerProcess.propagate_distr_impl p (a - b) d0 with e | d <;>
    simp [WienerProcess.impl, hres]

/-- Witness for C3 at a concrete 2-dimensional input. -/
theorem C3_wiener_propagate_distr_witness :
    ((1 : ℝ) ≠ 0) ∧
    (MarkovProcess.propagate_distr (WienerProcess.impl wiener_dim2) 86400
        (.num 1) (.num 0) (NormalDistr.dirac (col_of 2 0)) ⟨none⟩ ()).fst
      = WienerProcess.propagate_distr_spec wiener_dim2 (1 - 0) (NormalDistr.dirac (col_of 2 0)) :=
  ⟨one_ne_zero,
    C3_wiener_propagate_distr wiener_dim2 1 0 86400 (NormalDistr.dirac (col_of 2 0)) one_ne_zero⟩

/-- The matrix exponential of a `1 × 1` real matrix is the scalar
exponential of its single entry. -/
theorem exp_fin_one (M : Matrix (Fin 1) (Fin 1) ℝ) :
    NormedSpace.exp ℝ M 0 0 = Real.exp (M 0 0) := by
  obtain ⟨r, hr⟩ : ∃ r, M = Matrix.diagonal (fun _ : Fin 1 => r) :=
    ⟨M 0 0, by ext i j; fin_cases i <;> fin_cases j <;> simp⟩
  subst hr
  rw [Matrix.exp_diagonal]
  simp [Real.exp_eq_exp_ℝ]

/-- `la_expm_core` on a `1 × 1` array evaluates to the scalar exponential. -/
theorem la_expm_core_entry_one (f : Nat → Nat → ℝ) :
    (la_expm_core ⟨1, 1, f⟩).entry 0 0 = Real.exp (f 0 0) := by
  have h := exp_fin_one (Matrix.of fun p q : Fin 1 => f p.val q.val)
  simpa [la_expm_core] using h

/-- Reduction of `Except` bind on a success value. -/
theorem except_bind_ok {α β : Type} (a : α) (f : α → Except PyErr β) :
    (Except.ok a >>= f) = f a := rfl

/-- Reduction of `Except` bind on an error value. -/
theorem except_bind_error {α β : Type} (e : PyErr) (f : α → Except PyErr β) :
    ((Except.error e : Except PyErr α) >>= f) = .error e := rfl

/-- `mean_reversion_factor` on a fresh memo slot computes
`la.expm(transition * (-Δt))` and stores it. -/
theorem ou_mrf_fresh (p : OrnsteinUhlenbeckProcess) (td : ℝ) :
    OrnsteinUhlenbeckProcess.mean_reversion_factor p ⟨none, none⟩ td
      = (.ok (some (la_expm_core (np_smul (-td) p.transition))),
         ⟨some td, some (la_expm_core (np_smul (-td) p.transition))⟩) := by
  rw [OrnsteinUhlenbeckProcess.mean_reversion_factor, memo_step, if_neg (by simp),
    la_expm, if_pos (show (np_smul (-td) p.transition).rows = (np_smul (-td) p.transition).cols
      from p.transition_square.symm)]

/-- `OrnsteinUhlenbeckProcess._propagate_distr_impl`, evaluated on the fresh
memo state, agrees with the claim-side formula of C2, errors included. -/
theorem ou_impl_fresh_eq_spec (p : OrnsteinUhlenbeckProcess) (td : ℝ) (d0 : NormalDistr) :
    (OrnsteinUhlenbeckProcess.propagate_distr_impl p td d0
        OrnsteinUhlenbeckProcess.OUMemo.fresh).fst
      = OrnsteinUhlenbeckProcess.propagate_distr_spec p td d0 := by
  have hexp : la_expm (np_smul (-td) p.transition)
      = .ok (la_expm_core (np_smul (-td) p.transition)) := by
    rw [la_expm, if_pos (show (np_smul (-td) p.transition).rows = (np_smul (-td) p.transition).cols
      from p.transition_square.symm)]
  rw [OrnsteinUhlenbeckProcess.propagate_distr_impl, OrnsteinUhlenbeckProcess.propagate_distr_spec]
  rw [show OrnsteinUhlenbeckProcess.OUMemo.fresh.mrf = (⟨none, none⟩ : MemoState ℝ NDArr) from rfl,
    show OrnsteinUhlenbeckProcess.OUMemo.fresh.mrfsq = (⟨none, none⟩ : MemoState ℝ NDArr) from rfl]
  simp only [ou_mrf_fresh, hexp, except_bind_ok]
  rcases h1 : np_sub (np_eye (OrnsteinUhlenbeckProcess.process_dim p))
      (la_expm_core (np_smul (-td) p.transition)) with e | eyeminus <;>
    simp only [h1, except_bind_ok, except_bind_error]
  rcases h2 : np_dot (la_expm_core (np_smul (-td) p.transition)) d0.mean with e | m1 <;>
    simp only [h2, except_bind_ok, except_bind_error]
  rcases h3 : np_dot eyeminus p.mean with e | m2 <;>
    simp only [h3, except_bind_ok, except_bind_error]
  rcases h4 : np_add m1 m2 with e | m <;>
    simp only [h4, except_bind_ok, except_bind_error]
  rcases h5 : np_dot (la_expm_core (np_smul (-td) p.transition)) d0.cov with e | c1 <;>
    simp only [h5, except_bind_ok, except_bind_error]
  rcases h6 : np_dot c1 (la_expm_core (np_smul (-td) p.transition)).T with e | c2 <;>
    simp only [h6, except_bind_ok, except_bind_error]
  rcases h7 : OrnsteinUhlenbeckProcess.noise_covariance p ⟨none, none⟩ td with ⟨r, sq2⟩
  rcases r with e | nc <;> simp only [h7, except_bind_ok, except_bind_error]
  rcases h8 : np_add c2 nc with e | c <;>
    simp only [h8, except_bind_ok, except_bind_error]

/-- Shape projections of `la_expm_core` (`la.expm` preserves the shape). -/
theorem la_expm_core_rows (a : NDArr) : (la_expm_core a).rows = a.rows := rfl

/-- Column count of `la_expm_core`. -/
theorem la_expm_core_cols (a : NDArr) : (la_expm_core a).cols = a.rows := rfl

/-- Shape projections of `np_inv_core` (`np.linalg.inv` preserves the shape). -/
theorem np_inv_core_rows (a : NDArr) : (np_inv_core a).rows = a.rows := rfl

/-- Column count of `np_inv_core`. -/
theorem np_inv_core_cols (a : NDArr) : (np_inv_core a).cols = a.rows := rfl

/-- Running the default OU process by `Δt = ln 2` from `Dirac(1)` along the
claim-side formula produces mean `0.5`. -/
theorem ou_default_spec_mean :
    (OrnsteinUhlenbeckProcess.propagate_distr_spec ou_default (Real.log 2)
        (NormalDistr.dirac (matrix_of 1 1 1))).map (fun d => d.mean.entry 0 0)
      = .ok (1 / 2) := by
  have hx : Real.exp (-Real.log 2) = 1 / 2 := by
    rw [Real.exp_neg, Real.exp_log two_pos]
    norm_num
  simp [OrnsteinUhlenbeckProcess.propagate_distr_spec, OrnsteinUhlenbeckProcess.noise_covariance,
    OrnsteinUhlenbeckProcess.mean_reversion_factor_squared, OrnsteinUhlenbeckProcess.transition_x_2,
    OrnsteinUhlenbeckProcess.transition_x_2_inverse, OrnsteinUhlenbeckProcess.process_dim,
    OrnsteinUhlenbeckProcess.cov_vec, OrnsteinUhlenbeckProcess.cov,
    ou_default, memo_step, la_expm, np_sub, np_add, np_dot, np_mm, np_smul, np_eye,
    npBroadcast2, bcDim, bcIdx, npu_vec, npu_unvec, npu_kron_sum, np_kron, matrix_of,
    NormalDistr.dirac, NDArr.T, except_bind_ok, except_bind_error,
    la_expm_core_rows, la_expm_core_cols, np_inv_core_rows, np_inv_core_cols,
    la_expm_core_entry_one, Finset.sum_range_one, hx, Except.map]

/-- The Markov engine runs the OU distribution propagation from fresh cache
and memo state, yielding exactly the claim-side formula of C2. -/
theorem ou_engine_fresh (p : OrnsteinUhlenbeckProcess) (a b u : ℝ) (d0 : NormalDistr)
    (h : a ≠ b) :
    (MarkovProcess.propagate_distr (OrnsteinUhlenbeckProcess.impl p) u (.num a) (.num b) d0
        ⟨none⟩ OrnsteinUhlenbeckProcess.OUMemo.fresh).fst
      = OrnsteinUhlenbeckProcess.propagate_distr_spec p (a - b) d0 := by
  have hne : (.num a : PyTime) ≠ .num b := by simp [h]
  have hmiss : cache_hit (⟨none⟩ : MarkovState NormalDistr) (.num a) (.num b) d0 = none := rfl
  have hstep : elapsed_step (.num a) (.num b) u = .ok (a - b) := rfl
  rw [MarkovProcess.propagate_distr, if_neg hne, hmiss, hstep,
    ← ou_impl_fresh_eq_spec p (a - b) d0]
  rcases hres : OrnsteinUhlenbeckProcess.propagate_distr_impl p (a - b) d0
      OrnsteinUhlenbeckProcess.OUMemo.fresh with ⟨r, s2⟩
  rcases r with e | d <;> simp [OrnsteinUhlenbeckProcess.impl, hres]

/-- C2: on a fresh process, `mean_reversion_factor(Δt)` is the matrix
exponential of `-transition·Δt` (entrywise equal to Mathlib's matrix
exponential); for every OU process and nonzero elapsed step the engine's
`propagate_distr` produces the Gaussian `(mrf·mean0 + (I - mrf)·mean,
mrf·cov0·mrfᵗ + noise_covariance(Δt))` of the claim; and concretely, for
`transition = 1`, `mean = 0`, `vol = 1`, `Δt = ln 2`, the mean-reversion
factor is `0.5` and propagating `Dirac(1)` gives mean `0.5`. -/
theorem C2_ou_mean_reversion_and_propagate :
    (∀ (p : OrnsteinUhlenbeckProcess) (td : ℝ),
      (OrnsteinUhlenbeckProcess.mean_reversion_factor p ⟨none, none⟩ td).fst
        = .ok (some (la_expm_core (np_smul (-td) p.transition))))
    ∧ (∀ (a : NDArr) (i j : Fin a.rows),
      (la_expm_core a).entry i j
        = NormedSpace.exp ℝ (Matrix.of fun u v : Fin a.rows => a.entry u.val v.val) i j)
    ∧ (∀ (p : OrnsteinUhlenbeckProcess) (a b u : ℝ) (d0 : NormalDistr), a ≠ b →
      (MarkovProcess.propagate_distr (OrnsteinUhlenbeckProcess.impl p) u (.num a) (.num b) d0
          ⟨none⟩ OrnsteinUhlenbeckProcess.OUMemo.fresh).fst
        = OrnsteinUhlenbeckProcess.propagate_distr_spec p (a - b) d0)
    ∧ (la_expm_core (np_smul (-Real.log 2) ou_default.transition)).entry 0 0 = 1 / 2
    ∧ ((MarkovProcess.propagate_distr (OrnsteinUhlenbeckProcess.impl ou_default) 86400
          (.num (Real.log 2)) (.num 0) (NormalDistr.dirac (matrix_of 1 1 1))
          ⟨none⟩ OrnsteinUhlenbeckProcess.OUMemo.fresh).fst.map
        fun d => d.mean.entry 0 0) = .ok (1 / 2) := by
  have hx : Real.exp (-Real.log 2) = 1 / 2 := by
    rw [Real.exp_neg, Real.exp_log two_pos]
    norm_num
  have hlog : Real.log 2 ≠ 0 := ne_of_gt (Real.log_pos one_lt_two)
  refine ⟨?_, ?_, ?_, ?_, ?_⟩
  · intro p td
    simp [ou_mrf_fresh]
  · intro a i j
    simp [la_expm_core, i.isLt, j.isLt, Fin.eta]
  · intro p a b u d0 h
    exact ou_engine_fresh p a b u d0 h
  · simp [ou_default, np_smul, matrix_of, la_expm_core_entry_one, hx]
  · rw [ou_engine_fresh ou_default (Real.log 2) 0 86400 (NormalDistr.dirac (matrix_of 1 1 1)) hlog,
      sub_zero]
    exact ou_default_spec_mean

/-- Witness for C2 at a concrete input: the engine part applied with
`Δt = 1 ≠ 0` on the 2-dimensional OU fixture. -/
theorem C2_ou_mean_reversion_and_propagate_witness :
    ((1 : ℝ) ≠ 0) ∧
    (MarkovProcess.propagate_distr (OrnsteinUhlenbeckProcess.impl ou_dim2) 86400
        (.num 1) (.num 0) (NormalDistr.dirac (col_of 2 0))
        ⟨none⟩ OrnsteinUhlenbeckProcess.OUMemo.fresh).fst
      = OrnsteinUhlenbeckProcess.propagate_distr_spec ou_dim2 (1 - 0) (NormalDistr.dirac (col_of 2 0)) :=
  ⟨one_ne_zero,
    C2_ou_mean_reversion_and_propagate.2.2.1 ou_dim2 1 0 86400
      (NormalDistr.dirac (col_of 2 0)) one_ne_zero⟩

/-- C1: the claim's Lyapunov formula (with `I` conformable with the
`d² × d²` matrix `mean_reversion_factor_squared(Δt)`) disagrees with the
code, which subtracts from `np.eye(process_dim)`: already at process
dimension 2 (`ou_dim2`, `Δt = 1`) `noise_covariance` raises numpy's
broadcast `ValueError` (`2 × 2` minus `4 × 4`); the two agree exactly in
dimension 1, where `np.eye(1)` and the `d² × d²` identity coincide. -/
theorem C1_noise_covariance :
    (OrnsteinUhlenbeckProcess.noise_covariance ou_dim2 ⟨none, none⟩ 1).fst = .error .valueError
    ∧ ∀ td : ℝ,
      (OrnsteinUhlenbeckProcess.noise_covariance ou_default ⟨none, none⟩ td).fst
        = OrnsteinUhlenbeckProcess.noise_covariance_spec ou_default td := by
  constructor
  · simp [OrnsteinUhlenbeckProcess.noise_covariance,
      OrnsteinUhlenbeckProcess.mean_reversion_factor_squared, memo_step,
      OrnsteinUhlenbeckProcess.transition_x_2, OrnsteinUhlenbeckProcess.process_dim,
      ou_dim2, la_expm, np_smul, np_sub, npBroadcast2, bcDim, np_eye, col_of, matrix_of,
      npu_kron_sum, np_kron, la_expm_core_rows, la_expm_core_cols,
      except_bind_ok, except_bind_error]
  · intro td
    simp [OrnsteinUhlenbeckProcess.noise_covariance,
      OrnsteinUhlenbeckProcess.noise_covariance_spec,
      OrnsteinUhlenbeckProcess.mean_reversion_factor_squared, memo_step,
      OrnsteinUhlenbeckProcess.transition_x_2, OrnsteinUhlenbeckProcess.transition_x_2_inverse,
      OrnsteinUhlenbeckProcess.process_dim, OrnsteinUhlenbeckProcess.cov_vec,
      OrnsteinUhlenbeckProcess.cov, ou_default, la_expm, np_smul, np_sub, np_dot, np_mm,
      npBroadcast2, bcDim, bcIdx, np_eye, matrix_of, npu_kron_sum, np_kron, npu_vec, npu_unvec,
      NDArr.T, la_expm_core_rows, la_expm_core_cols, np_inv_core_rows, np_inv_core_cols,
      except_bind_ok, except_bind_error]

/-- C9: in dimension 1, `__eq__` is truthy exactly on structurally equal
`(mean, vol)` pairs (with `transition` excluded for OU) and `__ne__` is its
negation; but already in dimension 2 the claim fails on the code: the
elementwise numpy comparison yields a `2 × 1` boolean array whose coercion
through `and`/`bool()` raises `ValueError` (ambiguous truth value), even
between an instance and itself. -/
theorem C9_process_equality :
    WienerProcess.eq wiener_dim2 wiener_dim2 = .error .valueError
    ∧ (WienerProcess.eq wiener_default wiener_default).bind py_bool = .ok true
    ∧ (WienerProcess.eq wiener_default wiener_vol2).bind py_bool = .ok false
    ∧ WienerProcess.ne wiener_default wiener_vol2 = .ok true
    ∧ WienerProcess.ne wiener_default wiener_default = .ok false
    ∧ (OrnsteinUhlenbeckProcess.eq ou_default ou_trans3).bind py_bool = .ok true
    ∧ OrnsteinUhlenbeckProcess.eq ou_dim2 ou_dim2 = .error .valueError := by
  refine ⟨?_, ?_, ?_, ?_, ?_, ?_, ?_⟩ <;>
    norm_num [WienerProcess.eq, WienerProcess.ne, OrnsteinUhlenbeckProcess.eq,
      wiener_dim2, wiener_default, wiener_vol2, ou_default, ou_trans3, ou_dim2,
      np_eqB, py_and, py_bool, bcDim, bcIdx, matrix_of, col_of, np_eye,
      Except.bind, except_bind_ok, except_bind_error]
